import Mathlib

/-! ## Definitions: the shallow embedding of the source -/

/-!
Verification of the incremental Kubernetes resource-metadata cache and the
pod/service selector join engine (signalfx-agent): the `PodServiceCache`
bidirectional join index, the `PodCache`/`ServiceCache` change-detection
caches, and the `DatapointCache` orchestrator with its dimension-property
records.

Go maps are embedded as association lists (`mfind`/`minsert`/`merase`); a
missing key reads as the Go zero value (`Option.getD`).  Go sets
(`map[UID]bool`) are embedded as duplicate-free lists.  Faults (nil pointer
dereferences) are embedded as `Option`-valued operations returning `none`.
-/

/-- Association-list lookup, embedding a Go map read (`m[k]`). -/
def mfind {α β : Type} [DecidableEq α] : List (α × β) → α → Option β
  | [], _ => none
  | kv :: rest, key => if key = kv.1 then some kv.2 else mfind rest key

/-- Association-list write, embedding a Go map assignment (`m[k] = v`). -/
def minsert {α β : Type} [DecidableEq α] (m : List (α × β)) (key : α) (v : β) :
    List (α × β) :=
  (key, v) :: m.filter (fun kv => decide (kv.1 ≠ key))

/-- Association-list removal, embedding Go `delete(m, k)`. -/
def merase {α β : Type} [DecidableEq α] (m : List (α × β)) (key : α) :
    List (α × β) :=
  m.filter (fun kv => decide (kv.1 ≠ key))

/-- Membership insertion into a Go set (`set[v] = true`). -/
def insertSet {β : Type} [DecidableEq β] (l : List β) (v : β) : List β :=
  if v ∈ l then l else v :: l

/-- Removing an element from a Go set (`delete(set, v)`). -/
def removeSetElem {β : Type} [DecidableEq β] (l : List β) (v : β) : List β :=
  l.filter (fun x => decide (x ≠ v))

/-- Function `addToSetMap m k v` embeds the Go idiom: create `m[k]` as an empty set if
absent, then `m[k][v] = true`. -/
def addToSetMap {α β : Type} [DecidableEq α] [DecidableEq β]
    (m : List (α × List β)) (k : α) (v : β) : List (α × List β) :=
  minsert m k (insertSet ((mfind m k).getD []) v)

/-- Function `removeFromSetMap m k v` embeds Go `delete(m[k], v)`: a no-op when `m[k]`
is absent (deleting from a nil map), otherwise removes `v` from the set. -/
def removeFromSetMap {α β : Type} [DecidableEq α] [DecidableEq β]
    (m : List (α × List β)) (k : α) (v : β) : List (α × List β) :=
  match mfind m k with
  | none => m
  | some l => minsert m k (removeSetElem l v)

/-- Membership of `v` in the set stored at key `k` (false when `k` is absent). -/
def memSet {α β : Type} [DecidableEq α] [DecidableEq β]
    (m : List (α × List β)) (k : α) (v : β) : Prop :=
  v ∈ (mfind m k).getD []

instance {α β : Type} [DecidableEq α] [DecidableEq β]
    (m : List (α × List β)) (k : α) (v : β) : Decidable (memSet m k v) :=
  inferInstanceAs (Decidable (v ∈ _))

/-! ## Data model: resource identities, labels, selectors -/

/-- Source `types.UID`: the opaque unique resource key. -/
abbrev UID := String

/-- Source `labels.Set`: a label key/value mapping (Go `map[string]string`, a nil map
embedded as `[]`). -/
abbrev LabelSet := List (String × String)

/-- Source `labels.Selector` as produced by
`labels.Set(selectorSpec).AsSelectorPreValidated()`: one `key = value`
requirement per selector entry. -/
abbrev Selector := List (String × String)

/-- Source `Selector.Matches(labelSet)`: every requirement `k = v` of the selector is
satisfied by the label set. -/
def selMatches (sel : Selector) (ls : LabelSet) : Bool :=
  sel.all (fun kv => mfind ls kv.1 == some kv.2)

/-- Source `Selector.Empty()`. -/
def selEmpty (sel : Selector) : Bool := sel.isEmpty

/-- The fields of a `v1.Pod` consumed by the caches: UID, namespace, labels
and owner references (each owner reference kept opaque as a string). -/
structure Pod where
  uid : UID
  ns : String
  labels : LabelSet
  ownerReferences : List String
deriving DecidableEq, Repr

/-- The fields of a `v1.Service` consumed by the caches: UID, namespace, name
and the `Spec.Selector` label map. -/
structure Service where
  uid : UID
  ns : String
  name : String
  selector : List (String × String)
deriving DecidableEq, Repr

/-- Lexicographic comparison of character lists by code point, embedding the
string order used by Go `sort.Strings` (byte-wise lexicographic; identical on
the ASCII data handled here). -/
def charListLe : List Char → List Char → Bool
  | [], _ => true
  | _ :: _, [] => false
  | a :: as, b :: bs => if a = b then charListLe as bs else decide (a < b)

/-- Comparison `a <= b` in Go string order. -/
def strLe (a b : String) : Bool := charListLe a.data b.data

/-! ## PodServiceCache: the bidirectional pod/service join index -/

/-- Source `PodServiceCache`: internal cache mapping services to pods for property
propagation. -/
structure PodServiceCache where
  svcUIDNamespaceCache : List (UID × String)
  svcUIDNameCache : List (UID × String)
  svcUIDSelectorCache : List (UID × Selector)
  podUIDLabelCache : List (UID × LabelSet)
  podUIDNamespaceCache : List (UID × String)
  podSvcUIDCache : List (UID × List UID)
  svcPodUIDCache : List (UID × List UID)
deriving DecidableEq, Repr

/-- Source `NewPodServiceCache`. -/
def NewPodServiceCache : PodServiceCache :=
  { svcUIDNamespaceCache := [], svcUIDNameCache := [], svcUIDSelectorCache := []
    podUIDLabelCache := [], podUIDNamespaceCache := []
    podSvcUIDCache := [], svcPodUIDCache := [] }

/-- Source `refreshCacheByService`: loops over every cached pod and records the
relation (in both directions) for each pod matching the service's stored
selector in the service's namespace.  Returns the matched pod UIDs. -/
def PodServiceCache.refreshCacheByService (psc : PodServiceCache) (svc : Service) :
    PodServiceCache × List UID :=
  match mfind psc.svcUIDSelectorCache svc.uid with
  | none => (psc, [])
  | some selector =>
    psc.podUIDLabelCache.foldl
      (fun acc pkv =>
        if selMatches selector pkv.2
            && ((mfind acc.1.podUIDNamespaceCache pkv.1).getD "" == svc.ns) then
          ({ acc.1 with
              podSvcUIDCache := addToSetMap acc.1.podSvcUIDCache pkv.1 svc.uid
              svcPodUIDCache := addToSetMap acc.1.svcPodUIDCache svc.uid pkv.1 },
            acc.2 ++ [pkv.1])
        else acc)
      (psc, [])

/-- Source `refreshCacheByPod`: loops over every cached service selector and records
the relation (in both directions) for each service matching the pod's stored
labels in the pod's namespace.  Returns the matched service UIDs. -/
def PodServiceCache.refreshCacheByPod (psc : PodServiceCache) (pod : Pod) :
    PodServiceCache × List UID :=
  match mfind psc.podUIDLabelCache pod.uid with
  | none => (psc, [])
  | some labelSet =>
    psc.svcUIDSelectorCache.foldl
      (fun acc skv =>
        if selMatches skv.2 labelSet
            && ((mfind acc.1.svcUIDNamespaceCache skv.1).getD "" == pod.ns) then
          ({ acc.1 with
              podSvcUIDCache := addToSetMap acc.1.podSvcUIDCache pod.uid skv.1
              svcPodUIDCache := addToSetMap acc.1.svcPodUIDCache skv.1 pod.uid },
            acc.2 ++ [skv.1])
        else acc)
      (psc, [])

/-- Source `SetService`: no-op on an empty selector, no-op when selector, name and
namespace are all unchanged; otherwise stores the new namespace/selector/name
and refreshes the join relation for this service. -/
def PodServiceCache.SetService (psc : PodServiceCache) (svc : Service) :
    PodServiceCache :=
  let selector := svc.selector
  if selEmpty selector then psc
  else
    let cachedNamespace := (mfind psc.svcUIDNamespaceCache svc.uid).getD ""
    let cachedSelector := mfind psc.svcUIDSelectorCache svc.uid
    let cachedName := (mfind psc.svcUIDNameCache svc.uid).getD ""
    if cachedSelector == some selector && cachedName == svc.name
        && cachedNamespace == svc.ns then psc
    else
      let psc :=
        { psc with
            svcUIDNamespaceCache := minsert psc.svcUIDNamespaceCache svc.uid svc.ns
            svcUIDSelectorCache := minsert psc.svcUIDSelectorCache svc.uid selector
            svcUIDNameCache := minsert psc.svcUIDNameCache svc.uid svc.name }
      (psc.refreshCacheByService svc).1

/-- Source `DeleteServiceFromCache`: removes the service from namespace/selector/name
caches, removes the reverse relation from every pod it was joined to, and
drops its pod set. -/
def PodServiceCache.DeleteServiceFromCache (psc : PodServiceCache) (svcUID : UID) :
    PodServiceCache :=
  let psc :=
    { psc with
        svcUIDNamespaceCache := merase psc.svcUIDNamespaceCache svcUID
        svcUIDSelectorCache := merase psc.svcUIDSelectorCache svcUID
        svcUIDNameCache := merase psc.svcUIDNameCache svcUID }
  match mfind psc.svcPodUIDCache svcUID with
  | none => psc
  | some podsSet =>
    let psc := podsSet.foldl
      (fun st podUID =>
        { st with podSvcUIDCache := removeFromSetMap st.podSvcUIDCache podUID svcUID })
      psc
    { psc with svcPodUIDCache := merase psc.svcPodUIDCache svcUID }

/-- Source `SetPod`: no-op when the pod's label set and namespace are unchanged;
otherwise stores the new namespace/labels and refreshes the join relation for
this pod. -/
def PodServiceCache.SetPod (psc : PodServiceCache) (pod : Pod) : PodServiceCache :=
  let labelSet := pod.labels
  let cachedLabelSet := (mfind psc.podUIDLabelCache pod.uid).getD []
  let cachedNamespace := (mfind psc.podUIDNamespaceCache pod.uid).getD ""
  if cachedLabelSet == labelSet && cachedNamespace == pod.ns then psc
  else
    let psc :=
      { psc with
          podUIDNamespaceCache := minsert psc.podUIDNamespaceCache pod.uid pod.ns
          podUIDLabelCache := minsert psc.podUIDLabelCache pod.uid labelSet }
    (psc.refreshCacheByPod pod).1

/-- Source `DeletePodFromCache`: removes the pod from namespace/label caches, removes
the reverse relation from every service it was joined to, and drops its
service set. -/
def PodServiceCache.DeletePodFromCache (psc : PodServiceCache) (podUID : UID) :
    PodServiceCache :=
  let psc :=
    { psc with
        podUIDNamespaceCache := merase psc.podUIDNamespaceCache podUID
        podUIDLabelCache := merase psc.podUIDLabelCache podUID }
  match mfind psc.podSvcUIDCache podUID with
  | none => psc
  | some servicesSet =>
    let psc := servicesSet.foldl
      (fun st svcUID =>
        { st with svcPodUIDCache := removeFromSetMap st.svcPodUIDCache svcUID podUID })
      psc
    { psc with podSvcUIDCache := merase psc.podSvcUIDCache podUID }

/-- Source `GetPodUIDsForServiceUID`: the pods currently joined to a service. -/
def PodServiceCache.GetPodUIDsForServiceUID (psc : PodServiceCache) (svcUID : UID) :
    List UID :=
  (mfind psc.svcPodUIDCache svcUID).getD []

/-- Source `GetPodUIDsForService`. -/
def PodServiceCache.GetPodUIDsForService (psc : PodServiceCache) (svc : Service) :
    List UID :=
  psc.GetPodUIDsForServiceUID svc.uid

/-- Source `getServiceNamesForPodUID`: the names of all services joined to a pod. -/
def PodServiceCache.getServiceNamesForPodUID (psc : PodServiceCache) (podUID : UID) :
    List String :=
  match mfind psc.podSvcUIDCache podUID with
  | none => []
  | some serviceUIDs =>
    serviceUIDs.map (fun svcUID => (mfind psc.svcUIDNameCache svcUID).getD "")

/-- Source `GetServiceNameForPodUID`: an error (`none`) when no service is joined to
the pod, otherwise the alphabetically first service name (sort, take head). -/
def PodServiceCache.GetServiceNameForPodUID (psc : PodServiceCache) (podUID : UID) :
    Option String :=
  let services := psc.getServiceNamesForPodUID podUID
  if services.isEmpty then none
  else
    match List.insertionSort (fun a b : String => strLe a b = true) services with
    | [] => none
    | s :: _ => some s

/-- Source `GetServiceNameForPod`. -/
def PodServiceCache.GetServiceNameForPod (psc : PodServiceCache) (pod : Pod) :
    Option String :=
  psc.GetServiceNameForPodUID pod.uid

/-- One mutation of the `PodServiceCache`. -/
inductive PSCOp where
  | setPod (pod : Pod)
  | setService (svc : Service)
  | deletePod (podUID : UID)
  | deleteService (svcUID : UID)
deriving DecidableEq, Repr

/-- Apply one mutation. -/
def PSCOp.apply (psc : PodServiceCache) : PSCOp → PodServiceCache
  | .setPod pod => psc.SetPod pod
  | .setService svc => psc.SetService svc
  | .deletePod podUID => psc.DeletePodFromCache podUID
  | .deleteService svcUID => psc.DeleteServiceFromCache svcUID

/-- Run a sequence of mutations on a fresh cache. -/
def runPSCOps (ops : List PSCOp) : PodServiceCache :=
  ops.foldl PSCOp.apply NewPodServiceCache

/-! ## Change-detection caches (PodCache, ServiceCache) -/

/-- Source `PodCache`: per-pod change-detection cache. -/
structure PodCache where
  namespacePodUIDCache : List (String × List UID)
  podUIDNamespaceCache : List (UID × String)
  podUIDLabelCache : List (UID × LabelSet)
  podUIDORCache : List (UID × List String)
deriving DecidableEq, Repr

/-- Source `NewPodCache`. -/
def NewPodCache : PodCache :=
  { namespacePodUIDCache := [], podUIDNamespaceCache := []
    podUIDLabelCache := [], podUIDORCache := [] }

/-- Source `PodCache.IsCached`: true iff the stored label set, namespace and owner
references all equal the pod's current values (missing entries read as the Go
zero values: nil labels, empty string, nil slice). -/
def PodCache.IsCached (pc : PodCache) (pod : Pod) : Bool :=
  ((mfind pc.podUIDLabelCache pod.uid).getD [] == pod.labels)
    && ((mfind pc.podUIDNamespaceCache pod.uid).getD "" == pod.ns)
    && ((mfind pc.podUIDORCache pod.uid).getD [] == pod.ownerReferences)

/-- Source `PodCache.AddPod`: upserts namespace membership, namespace, labels and
owner references. -/
def PodCache.AddPod (pc : PodCache) (pod : Pod) : PodCache :=
  { pc with
      namespacePodUIDCache := addToSetMap pc.namespacePodUIDCache pod.ns pod.uid
      podUIDNamespaceCache := minsert pc.podUIDNamespaceCache pod.uid pod.ns
      podUIDLabelCache := minsert pc.podUIDLabelCache pod.uid pod.labels
      podUIDORCache := minsert pc.podUIDORCache pod.uid pod.ownerReferences }

/-- Source `PodCache.DeleteByKey`: removes the pod from the namespace index, the
namespace cache and the label cache (the owner-reference cache is not
touched by the source). -/
def PodCache.DeleteByKey (pc : PodCache) (key : UID) : PodCache :=
  let ns := (mfind pc.podUIDNamespaceCache key).getD ""
  { pc with
      namespacePodUIDCache := removeFromSetMap pc.namespacePodUIDCache ns key
      podUIDNamespaceCache := merase pc.podUIDNamespaceCache key
      podUIDLabelCache := merase pc.podUIDLabelCache key }

/-- Source `PodCache.GetLabels` (zero value `[]` when absent). -/
def PodCache.GetLabels (pc : PodCache) (key : UID) : LabelSet :=
  (mfind pc.podUIDLabelCache key).getD []

/-- Source `PodCache.GetOwnerReferences` (zero value `[]` when absent). -/
def PodCache.GetOwnerReferences (pc : PodCache) (key : UID) : List String :=
  (mfind pc.podUIDORCache key).getD []

/-- Source `PodCache.GetPodsInNamespace`. -/
def PodCache.GetPodsInNamespace (pc : PodCache) (ns : String) : List UID :=
  (mfind pc.namespacePodUIDCache ns).getD []

/-- Source `ServiceCache`: per-service change-detection cache. -/
structure ServiceCache where
  svcUIDNamespaceCache : List (UID × String)
  svcUIDNameCache : List (UID × String)
  svcUIDSelectorCache : List (UID × Selector)
  svcUIDPodsCache : List (UID × List UID)
deriving DecidableEq, Repr

/-- Source `NewServiceCache`. -/
def NewServiceCache : ServiceCache :=
  { svcUIDNamespaceCache := [], svcUIDNameCache := []
    svcUIDSelectorCache := [], svcUIDPodsCache := [] }

/-- Source `ServiceCache.IsCached`: true iff the stored selector, name and namespace
all equal the service's current values.  A missing selector entry is the Go
zero value for an interface (nil), which `reflect.DeepEqual` never equates
with the freshly computed (non-nil) selector — embedded as
`none == some selector`. -/
def ServiceCache.IsCached (sc : ServiceCache) (svc : Service) : Bool :=
  (mfind sc.svcUIDSelectorCache svc.uid == some svc.selector)
    && ((mfind sc.svcUIDNameCache svc.uid).getD "" == svc.name)
    && ((mfind sc.svcUIDNamespaceCache svc.uid).getD "" == svc.ns)

/-- Source `ServiceCache.AddService`: no-op on an empty selector, otherwise resets
the service's pod set and stores namespace/selector/name. -/
def ServiceCache.AddService (sc : ServiceCache) (svc : Service) : ServiceCache :=
  if selEmpty svc.selector then sc
  else
    { sc with
        svcUIDPodsCache := minsert sc.svcUIDPodsCache svc.uid []
        svcUIDNamespaceCache := minsert sc.svcUIDNamespaceCache svc.uid svc.ns
        svcUIDSelectorCache := minsert sc.svcUIDSelectorCache svc.uid svc.selector
        svcUIDNameCache := minsert sc.svcUIDNameCache svc.uid svc.name }

/-- Source `ServiceCache.DeleteByKey`: removes the service from all four caches and
returns the pods it previously matched. -/
def ServiceCache.DeleteByKey (sc : ServiceCache) (key : UID) :
    ServiceCache × List UID :=
  let pods := (mfind sc.svcUIDPodsCache key).getD []
  ({ sc with
      svcUIDPodsCache := merase sc.svcUIDPodsCache key
      svcUIDNamespaceCache := merase sc.svcUIDNamespaceCache key
      svcUIDSelectorCache := merase sc.svcUIDSelectorCache key
      svcUIDNameCache := merase sc.svcUIDNameCache key }, pods)

/-! ## DatapointCache: the unified resource cache -/

/-- A metric sample (`datapoint.Datapoint`): metric name, numeric value and
dimension key/value pairs. -/
structure Datapoint where
  metric : String
  value : Int
  dims : List (String × String)
deriving DecidableEq, Repr

/-- Source `atypes.DimProperties`: a dimension (name, value) with a property map and
a tag map. -/
structure DimProperties where
  Name : String
  Value : String
  Properties : List (String × String)
  Tags : List (String × Bool)
deriving DecidableEq, Repr

/-- Source `propertyLink`: a declarative property-propagation rule. -/
structure propertyLink where
  SourceProperty : String
  SourceKind : String
  SourceJoinKey : String
  TargetProperty : String
  TargetKind : String
  TargetJoinKey : String
deriving DecidableEq, Repr

/-- The configured link set: empty in the source (linking is disabled there
for scaling reasons; the list literal in `addDimPropsToCache` is fully
commented out). -/
def configuredLinks : List propertyLink := []

/-- Source `DatapointCache`: datapoints, dimension properties and kind tags per
resource UID, plus the pod/service join index. -/
structure DatapointCache where
  dpCache : List (UID × List Datapoint)
  dimPropCache : List (UID × DimProperties)
  uidKindCache : List (UID × String)
  podServiceCache : PodServiceCache
  useNodeName : Bool
deriving DecidableEq, Repr

/-- Source `NewDatapointCache`. -/
def NewDatapointCache (useNodeName : Bool) : DatapointCache :=
  { dpCache := [], dimPropCache := [], uidKindCache := []
    podServiceCache := NewPodServiceCache, useNodeName := useNodeName }

/-- Source `addDimPropsToCache`: runs the (empty) property-link set over the updated
record — the pull direction copies a matching source property into the
updated record, the push direction copies the updated record's property into
matching cached records — then stores the record under the key. -/
def DatapointCache.addDimPropsToCache (dc : DatapointCache) (key : UID)
    (dimProps : DimProperties) : DatapointCache :=
  let step := fun (acc : DatapointCache × DimProperties) (link : propertyLink) =>
    let (dc, dimProps) := acc
    let dimProps :=
      if (mfind dc.uidKindCache key).getD "" == link.TargetKind then
        dc.dimPropCache.foldl
          (fun dp ckv =>
            if (mfind dc.uidKindCache ckv.1).getD "" == link.SourceKind then
              let cachedProps := ckv.2.Properties
              if ((mfind cachedProps link.SourceJoinKey).getD "" != "")
                  && ((mfind cachedProps link.SourceJoinKey).getD ""
                      == (mfind dp.Properties link.TargetJoinKey).getD "") then
                { dp with Properties := (minsert dp.Properties link.TargetProperty
                    ((mfind cachedProps link.SourceProperty).getD "")) }
              else dp
            else dp)
          dimProps
      else dimProps
    let dc :=
      if (mfind dc.uidKindCache key).getD "" == link.SourceKind then
        { dc with dimPropCache :=
            (dc.dimPropCache.foldl
              (fun cache ckv =>
                if (mfind dc.uidKindCache ckv.1).getD "" == link.TargetKind then
                  let cachedProps := ckv.2.Properties
                  if ((mfind cachedProps link.TargetJoinKey).getD "" != "")
                      && ((mfind cachedProps link.TargetJoinKey).getD ""
                          == (mfind dimProps.Properties link.SourceJoinKey).getD "") then
                    minsert cache ckv.1
                      { ckv.2 with Properties := (minsert cachedProps link.TargetProperty
                          ((mfind dimProps.Properties link.SourceProperty).getD "")) }
                  else cache
                else cache)
              dc.dimPropCache) }
      else dc
    (dc, dimProps)
  let (dc, dimProps) := configuredLinks.foldl step (dc, dimProps)
  { dc with dimPropCache := minsert dc.dimPropCache key dimProps }

/-- Source `addPropertiesToDimProps`: writes each new property into the cached
record's property map.  Dereferences `dimPropCache[key]`: a missing record is
a nil pointer, so any non-empty update faults (`none`). -/
def DatapointCache.addPropertiesToDimProps (dc : DatapointCache) (key : UID)
    (newProps : List (String × String)) : Option DatapointCache :=
  newProps.foldlM
    (fun dc kv =>
      match mfind dc.dimPropCache key with
      | none => none
      | some dp =>
        some { dc with dimPropCache := (minsert dc.dimPropCache key
                 { dp with Properties := minsert dp.Properties kv.1 kv.2 }) })
    dc

/-- Source `deletePropertiesFromDimProps`: deletes each listed property from the
cached record's property map; same nil-pointer fault as above on a missing
record. -/
def DatapointCache.deletePropertiesFromDimProps (dc : DatapointCache) (key : UID)
    (propsToDelete : List String) : Option DatapointCache :=
  propsToDelete.foldlM
    (fun dc prop =>
      match mfind dc.dimPropCache key with
      | none => none
      | some dp =>
        some { dc with dimPropCache := (minsert dc.dimPropCache key
                 { dp with Properties := merase dp.Properties prop }) })
    dc

/-- Source `updateServicePropForPods`: for each pod UID, re-resolves the deterministic
service name and sets (or deletes) the pod record's `"service"` property.
Both branches dereference `dimPropCache[podUID]`, so a missing record
faults (`none`). -/
def DatapointCache.updateServicePropForPods (dc : DatapointCache)
    (podUIDs : List UID) : Option DatapointCache :=
  podUIDs.foldlM
    (fun dc podUID =>
      let serviceRes := dc.podServiceCache.GetServiceNameForPodUID podUID
      match mfind dc.dimPropCache podUID with
      | none => none
      | some dp =>
        match serviceRes with
        | none =>
          some { dc with dimPropCache := (minsert dc.dimPropCache podUID
                   { dp with Properties := merase dp.Properties "service" }) }
        | some service =>
          some { dc with dimPropCache := (minsert dc.dimPropCache podUID
                   { dp with Properties := minsert dp.Properties "service" service }) })
    dc

/-- Source `handleDeletePod`. -/
def DatapointCache.handleDeletePod (dc : DatapointCache) (key : UID) :
    DatapointCache :=
  { dc with podServiceCache := dc.podServiceCache.DeletePodFromCache key }

/-- Source `handleDeleteService`: reads the previously joined pods, removes the
service from the join index, then re-resolves each affected pod's
`"service"` property. -/
def DatapointCache.handleDeleteService (dc : DatapointCache) (key : UID) :
    Option DatapointCache :=
  let podUIDs := dc.podServiceCache.GetPodUIDsForServiceUID key
  let dc := { dc with
    podServiceCache := dc.podServiceCache.DeleteServiceFromCache key }
  dc.updateServicePropForPods podUIDs

/-- Source `DeleteByKey`: dispatches by the cached kind, then purges the key from
the kind, datapoint and dimension-property stores. -/
def DatapointCache.DeleteByKey (dc : DatapointCache) (key : UID) :
    Option DatapointCache :=
  let res :=
    match (mfind dc.uidKindCache key).getD "" with
    | "Pod" => some (dc.handleDeletePod key)
    | "Service" => dc.handleDeleteService key
    | _ => some dc
  match res with
  | none => none
  | some dc =>
    some { dc with
        uidKindCache := merase dc.uidKindCache key
        dpCache := merase dc.dpCache key
        dimPropCache := merase dc.dimPropCache key }

/-! ## HandleAdd: resource dispatch -/

/-- An inbound `runtime.Object`.  The seven kinds with no join involvement
(Namespace, ReplicationController, DaemonSet, Deployment, ReplicaSet,
ResourceQuota, Node) are collapsed into `other` carrying their kind string;
`unknown` is any object outside the nine handled shapes, with `hasMeta`
recording whether it exposes accessible object metadata.  A typed pod or
service always carries metadata (`ObjectMeta` is an embedded struct), so its
identity is always extractable. -/
inductive Resource where
  | pod (p : Pod)
  | service (s : Service)
  | other (kind : String) (uid : UID)
  | unknown (hasMeta : Bool) (uid : UID)
deriving DecidableEq, Repr

/-- Source `keyForObject`: fails exactly when the object exposes no accessible
object metadata. -/
def keyForObject : Resource → Option UID
  | .pod p => some p.uid
  | .service s => some s.uid
  | .other _ uid => some uid
  | .unknown hasMeta uid => if hasMeta then some uid else none

/-- Modelled from the spec: the per-kind sample/property derivation functions
(`datapointsForPod`, `dimPropsForPod`, `datapointsForNamespace`,
`dimPropsForNode`, ...) are not among the given sources; the spec treats data
extraction as a pure function per resource kind, so they are taken as
parameters. -/
structure DeriveFns where
  datapointsForPod : Pod → Option (List Datapoint)
  dimPropsForPod : Pod → DimProperties
  datapointsForOther : String → UID → Option (List Datapoint)
  dimPropsForOther : String → UID → Option DimProperties

/-- The store step at the end of `HandleAdd` (lines 144-152 of the source):
datapoints when non-nil, the kind when non-empty, and the dimension
properties (through `addDimPropsToCache`) when non-nil. -/
def DatapointCache.storeEntry (dc : DatapointCache) (key : UID)
    (dps : Option (List Datapoint)) (kind : String)
    (dimProps : Option DimProperties) : DatapointCache :=
  let dc := match dps with
    | none => dc
    | some l => { dc with dpCache := minsert dc.dpCache key l }
  let dc := if kind == "" then dc
    else { dc with uidKindCache := minsert dc.uidKindCache key kind }
  match dimProps with
  | none => dc
  | some dp => dc.addDimPropsToCache key dp

/-- Source `handleAddPod`: derive samples and properties, upsert the pod into the
join index, and merge the deterministic `"service"` property when one
matches. -/
def DatapointCache.handleAddPod (f : DeriveFns) (dc : DatapointCache) (pod : Pod) :
    Option (List Datapoint) × DimProperties × DatapointCache :=
  let dps := f.datapointsForPod pod
  let dimProps := f.dimPropsForPod pod
  let psc := dc.podServiceCache.SetPod pod
  let dimProps :=
    match psc.GetServiceNameForPod pod with
    | some service =>
      { dimProps with Properties := minsert dimProps.Properties "service" service }
    | none => dimProps
  (dps, dimProps, { dc with podServiceCache := psc })

/-- Source `handleAddService`: upsert the service into the join index, then
re-resolve the `"service"` property of every pod it now matches. -/
def DatapointCache.handleAddService (dc : DatapointCache) (svc : Service) :
    Option DatapointCache :=
  let dc := { dc with podServiceCache := dc.podServiceCache.SetService svc }
  let podUIDs := dc.podServiceCache.GetPodUIDsForService svc
  dc.updateServicePropForPods podUIDs

/-- Source `HandleAdd`: dispatch by the object's concrete shape, then extract the
identity key and store.  Result `none` embeds a fault; `some (dc, none)`
embeds a graceful `nil` return. -/
def DatapointCache.HandleAdd (f : DeriveFns) (dc : DatapointCache) (r : Resource) :
    Option (DatapointCache × Option UID) :=
  match r with
  | .pod p =>
    let res := dc.handleAddPod f p
    match keyForObject r with
    | none => some (res.2.2, none)
    | some key =>
      some (res.2.2.storeEntry key res.1 "Pod" (some res.2.1), some key)
  | .service s =>
    match dc.handleAddService s with
    | none => none
    | some dc1 =>
      match keyForObject r with
      | none => some (dc1, none)
      | some key => some (dc1.storeEntry key none "Service" none, some key)
  | .other kind uid =>
    let dps := f.datapointsForOther kind uid
    let dimProps := f.dimPropsForOther kind uid
    match keyForObject r with
    | none => some (dc, none)
    | some key => some (dc.storeEntry key dps kind dimProps, some key)
  | .unknown _ _ => some (dc, none)

/-! ## Reference-aware model of AllDatapoints (shared dimension maps)

A Go `datapoint.Datapoint` holds its `Dimensions` as a `map[string]string`,
i.e. a reference.  `AllDatapoints` copies each datapoint struct shallowly
(`dp := *dc.dpCache[k][i]`), which copies the map reference, not the map.
This fragment models the reference explicitly as an index into a heap of
dimension maps, to state what a caller's mutation of a returned datapoint's
dimension map does to the cache. -/

/-- A datapoint whose dimension map is a reference into a heap. -/
structure DatapointRef where
  metric : String
  dimsRef : Nat
deriving DecidableEq, Repr

/-- The datapoint store of a `DatapointCache` together with the heap of
dimension maps the stored datapoints reference. -/
structure DpCacheRef where
  heap : List (Nat × List (String × String))
  dpCache : List (UID × List DatapointRef)
deriving DecidableEq, Repr

/-- Source `AllDatapoints` over the reference model: for every cached entry, append a
shallow copy of each datapoint (same `dimsRef` — the map reference is
copied, not the map). -/
def DpCacheRef.AllDatapoints (dc : DpCacheRef) : List DatapointRef :=
  dc.dpCache.foldl
    (fun acc kv =>
      acc ++ kv.2.map (fun dp => { metric := dp.metric, dimsRef := dp.dimsRef }))
    []

/-- Reading a datapoint's dimension map through the heap. -/
def DpCacheRef.dimsOf (dc : DpCacheRef) (dp : DatapointRef) :
    List (String × String) :=
  (mfind dc.heap dp.dimsRef).getD []

/-- A caller writing one dimension of a datapoint it holds
(`dp.Dimensions[k] = v`): updates the referenced map in the heap. -/
def DpCacheRef.setDim (dc : DpCacheRef) (dp : DatapointRef) (k v : String) :
    DpCacheRef :=
  { dc with heap := (minsert dc.heap dp.dimsRef
      (minsert ((mfind dc.heap dp.dimsRef).getD []) k v)) }

/-! ## Join symmetry (C1) -/

/-- The join-symmetry invariant of the `PodServiceCache`. -/
def JoinSym (psc : PodServiceCache) : Prop :=
  ∀ a b, memSet psc.podSvcUIDCache a b ↔ memSet psc.svcPodUIDCache b a

/-! ## Clear-then-rematch (C2) and empty-selector exclusion (C3) -/

/-- Fixture: service `s1` named `websvc` selecting `app=foo` in `nsA`. -/
def svcFoo : Service := { uid := "s1", ns := "nsA", name := "websvc", selector := [("app", "foo")] }

/-- Fixture: the same service after its selector changed to `app=bar`. -/
def svcBar : Service := { uid := "s1", ns := "nsA", name := "websvc", selector := [("app", "bar")] }

/-- Fixture: the same service after its selector was cleared. -/
def svcNoSel : Service := { uid := "s1", ns := "nsA", name := "websvc", selector := [] }

/-- Fixture: pod `p1` labelled `app=foo` in `nsA`. -/
def podFoo : Pod := { uid := "p1", ns := "nsA", labels := [("app", "foo")], ownerReferences := [] }

/-- Holds (`true`) unless the operation is a `SetService` for service `S`
with a non-empty selector. -/
def emptySelectorFor (S : UID) : PSCOp → Bool
  | .setService svc => svc.uid != S || selEmpty svc.selector
  | _ => true

/-- Service `S` has no stored selector and belongs to no pod's
matched-service set. -/
def SvcUnjoinable (S : UID) (psc : PodServiceCache) : Prop :=
  mfind psc.svcUIDSelectorCache S = none
    ∧ ∀ p, ¬ memSet psc.podSvcUIDCache p S

/-! ## Deterministic service resolution (C4) -/

instance : IsTotal String (fun a b => strLe a b = true) := by
  refine ⟨fun a b => ?_⟩
  unfold strLe
  generalize a.data = x
  generalize b.data = y
  induction x generalizing y with
  | nil => exact Or.inl rfl
  | cons c cs ih =>
    cases y with
    | nil => exact Or.inr rfl
    | cons d ds =>
      simp only [charListLe]
      by_cases hcd : c = d
      · subst hcd
        rw [if_pos rfl, if_pos rfl]
        exact ih ds
      · rw [if_neg hcd, if_neg (Ne.symm hcd)]
        rcases lt_or_gt_of_ne hcd with h | h
        · exact Or.inl (decide_eq_true h)
        · exact Or.inr (decide_eq_true h)

instance : IsTrans String (fun a b => strLe a b = true) := by
  refine ⟨fun a b c => ?_⟩
  unfold strLe
  generalize a.data = x
  generalize b.data = y
  generalize c.data = z
  induction x generalizing y z with
  | nil => intro _ _; rfl
  | cons u us ih =>
    intro hab hbc
    cases y with
    | nil => simp [charListLe] at hab
    | cons v vs =>
      cases z with
      | nil => simp [charListLe] at hbc
      | cons w ws =>
        simp only [charListLe] at hab hbc ⊢
        by_cases huv : u = v
        · subst huv
          rw [if_pos rfl] at hab
          by_cases huw : u = w
          · subst huw
            rw [if_pos rfl] at hbc ⊢
            exact ih vs ws hab hbc
          · rw [if_neg huw] at hbc ⊢
            exact hbc
        · rw [if_neg huv] at hab
          have h1 : u < v := of_decide_eq_true hab
          by_cases hvw : v = w
          · subst hvw
            rw [if_neg (ne_of_lt h1)]
            exact decide_eq_true h1
          · rw [if_neg hvw] at hbc
            have h2 : v < w := of_decide_eq_true hbc
            rw [if_neg (ne_of_lt (lt_trans h1 h2))]
            exact decide_eq_true (lt_trans h1 h2)

/-- Fixture for C4: pod `p1` joined to two services named `web-b` and
`web-a`. -/
def c4psc : PodServiceCache :=
  { svcUIDNamespaceCache := [("s1", "nsA"), ("s2", "nsA")]
    svcUIDNameCache := [("s1", "web-b"), ("s2", "web-a")]
    svcUIDSelectorCache := [("s1", [("app", "foo")]), ("s2", [("app", "foo")])]
    podUIDLabelCache := [("p1", [("app", "foo")])]
    podUIDNamespaceCache := [("p1", "nsA")]
    podSvcUIDCache := [("p1", ["s1", "s2"])]
    svcPodUIDCache := [("s1", ["p1"]), ("s2", ["p1"])] }

/-- Fixture for C5: join state where service `s1` is joined to pods `p1`,
`p2` and both pods are joined only to `s1`. -/
def c5psc : PodServiceCache :=
  { svcUIDNamespaceCache := [("s1", "nsA")]
    svcUIDNameCache := [("s1", "websvc")]
    svcUIDSelectorCache := [("s1", [("app", "foo")])]
    podUIDLabelCache := [("p1", [("app", "foo")]), ("p2", [("app", "foo")])]
    podUIDNamespaceCache := [("p1", "nsA"), ("p2", "nsA")]
    podSvcUIDCache := [("p1", ["s1"]), ("p2", ["s1"])]
    svcPodUIDCache := [("s1", ["p1", "p2"])] }

/-- Fixture for C5: both pods carry a `"service"` property. -/
def c5dc : DatapointCache :=
  { dpCache := []
    dimPropCache :=
      [("p1", { Name := "kubernetes_pod_uid", Value := "p1"
                Properties := [("service", "websvc")], Tags := [] }),
        ("p2", { Name := "kubernetes_pod_uid", Value := "p2"
                 Properties := [("service", "websvc")], Tags := [] })]
    uidKindCache := [("s1", "Service"), ("p1", "Pod"), ("p2", "Pod")]
    podServiceCache := c5psc
    useNodeName := false }

/-! ## Unknown-key behaviour (C6), malformed resources (C7), read isolation (C8) -/

/-- Trivial derivation functions used by witnesses. -/
def trivialDerive : DeriveFns :=
  { datapointsForPod := fun _ => none
    dimPropsForPod := fun p =>
      { Name := "kubernetes_pod_uid", Value := p.uid, Properties := [], Tags := [] }
    datapointsForOther := fun _ _ => none
    dimPropsForOther := fun _ _ => none }

/-- Fixture for C8: one cached datapoint whose dimension map `{a : b}` lives
in heap cell `0`. -/
def c8cache : DpCacheRef :=
  { heap := [(0, [("a", "b")])]
    dpCache := [("u1", [{ metric := "m", dimsRef := 0 }])] }

/-! ## Change detection on first sight (C9) and partial purge (C10) -/

/-- Fixture pod for the C9 witness: a first-sight pod with a non-empty
namespace. -/
def podC9 : Pod := { uid := "p9", ns := "nsA", labels := [], ownerReferences := [] }

/-- Fixture service for the C9 witness. -/
def svcC9 : Service :=
  { uid := "s9", ns := "nsA", name := "websvc9", selector := [("app", "x")] }

/-- Fixture pod for the C10 witness. -/
def podC10 : Pod :=
  { uid := "p10", ns := "nsB", labels := [("app", "z")], ownerReferences := ["rsOwner"] }

/-! ## Theorems -/

theorem mfind_filter_ne {α β : Type} [DecidableEq α] (m : List (α × β)) (k k' : α) :
    mfind (m.filter (fun kv => decide (kv.1 ≠ k))) k' =
      if k' = k then none else mfind m k' := by
  induction m with
  | nil => simp [mfind]
  | cons kv rest ih =>
    rw [List.filter_cons]
    by_cases hk : kv.1 = k
    · have hd : (decide (kv.1 ≠ k)) = false := by simp [hk]
      rw [hd]
      simp only [Bool.false_eq_true, if_false]
      rw [ih]
      by_cases h' : k' = k
      · simp [h']
      · simp only [h', if_false, mfind]
        rw [if_neg (fun h => h' (h.trans hk))]
    · have hd : (decide (kv.1 ≠ k)) = true := by simp [hk]
      rw [hd]
      simp only [if_true]
      simp only [mfind]
      by_cases h' : k' = kv.1
      · rw [if_pos h', if_neg (fun h2 => hk (h' ▸ h2)), if_pos h']
      · rw [if_neg h', ih]
        by_cases h2 : k' = k
        · simp [h2]
        · simp [h2, h']

theorem mfind_merase {α β : Type} [DecidableEq α] (m : List (α × β)) (k k' : α) :
    mfind (merase m k) k' = if k' = k then none else mfind m k' :=
  mfind_filter_ne m k k'

theorem mfind_minsert {α β : Type} [DecidableEq α] (m : List (α × β)) (k : α) (v : β)
    (k' : α) :
    mfind (minsert m k v) k' = if k' = k then some v else mfind m k' := by
  unfold minsert
  by_cases h : k' = k
  · simp [mfind, h]
  · simp only [mfind, h, if_false]
    rw [mfind_filter_ne]
    simp [h]

theorem mfind_mem {α β : Type} [DecidableEq α] {m : List (α × β)} {k : α} {v : β}
    (h : mfind m k = some v) : (k, v) ∈ m := by
  induction m with
  | nil => simp [mfind] at h
  | cons kv rest ih =>
    obtain ⟨k1, v1⟩ := kv
    simp only [mfind] at h
    split at h
    · rename_i heq
      cases h
      subst heq
      exact List.mem_cons_self _ _
    · exact List.mem_cons_of_mem _ (ih h)

theorem mfind_eq_none_iff {α β : Type} [DecidableEq α] {m : List (α × β)} {k : α} :
    mfind m k = none ↔ ∀ p ∈ m, p.1 ≠ k := by
  induction m with
  | nil => simp [mfind]
  | cons kv rest ih =>
    simp only [mfind]
    by_cases h : k = kv.1
    · simp [h]
    · simp [h, ih]
      intro _
      exact fun heq => h heq.symm

theorem mem_insertSet {β : Type} [DecidableEq β] (l : List β) (v x : β) :
    x ∈ insertSet l v ↔ x = v ∨ x ∈ l := by
  unfold insertSet
  split
  · rename_i h
    constructor
    · exact Or.inr
    · rintro (rfl | hx)
      · exact h
      · exact hx
  · simp [List.mem_cons]

theorem mem_removeSetElem {β : Type} [DecidableEq β] (l : List β) (v x : β) :
    x ∈ removeSetElem l v ↔ x ∈ l ∧ x ≠ v := by
  unfold removeSetElem
  simp [List.mem_filter]

theorem memSet_addToSetMap {α β : Type} [DecidableEq α] [DecidableEq β]
    (m : List (α × List β)) (k : α) (v : β) (a : α) (b : β) :
    memSet (addToSetMap m k v) a b ↔ (a = k ∧ b = v) ∨ memSet m a b := by
  unfold memSet addToSetMap
  rw [mfind_minsert]
  by_cases h : a = k
  · subst h
    simp [mem_insertSet]
  · simp [h]

theorem memSet_removeFromSetMap {α β : Type} [DecidableEq α] [DecidableEq β]
    (m : List (α × List β)) (k : α) (v : β) (a : α) (b : β) :
    memSet (removeFromSetMap m k v) a b ↔ memSet m a b ∧ ¬(a = k ∧ b = v) := by
  unfold removeFromSetMap
  cases hm : mfind m k with
  | none =>
    unfold memSet
    constructor
    · intro hmem
      refine ⟨hmem, ?_⟩
      rintro ⟨rfl, rfl⟩
      rw [hm] at hmem
      simp at hmem
    · exact fun h => h.1
  | some l =>
    unfold memSet
    rw [mfind_minsert]
    by_cases h : a = k
    · subst h
      simp [hm, mem_removeSetElem]
    · simp [h]

theorem memSet_merase {α β : Type} [DecidableEq α] [DecidableEq β]
    (m : List (α × List β)) (k : α) (a : α) (b : β) :
    memSet (merase m k) a b ↔ memSet m a b ∧ a ≠ k := by
  unfold memSet
  rw [mfind_merase]
  by_cases h : a = k <;> simp [h]

theorem foldl_preserve {σ α : Type} (P : σ → Prop) (f : σ → α → σ) (l : List α)
    (hstep : ∀ s a, P s → P (f s a)) : ∀ s, P s → P (l.foldl f s) := by
  induction l with
  | nil => intro s hs; exact hs
  | cons x xs ih => intro s hs; exact ih _ (hstep s x hs)

theorem joinSym_maps_add {m1 m2 : List (UID × List UID)} (p s : UID)
    (h : ∀ a b, memSet m1 a b ↔ memSet m2 b a) :
    ∀ a b, memSet (addToSetMap m1 p s) a b ↔ memSet (addToSetMap m2 s p) b a := by
  intro a b
  rw [memSet_addToSetMap, memSet_addToSetMap, h]
  tauto

theorem refreshCacheByService_joinSym (psc : PodServiceCache) (svc : Service)
    (h : JoinSym psc) : JoinSym (psc.refreshCacheByService svc).1 := by
  unfold PodServiceCache.refreshCacheByService
  cases hsel : mfind psc.svcUIDSelectorCache svc.uid with
  | none => exact h
  | some selector =>
    have := foldl_preserve (fun acc : PodServiceCache × List UID => JoinSym acc.1)
      (fun acc pkv =>
        if selMatches selector pkv.2
            && ((mfind acc.1.podUIDNamespaceCache pkv.1).getD "" == svc.ns) then
          ({ acc.1 with
              podSvcUIDCache := addToSetMap acc.1.podSvcUIDCache pkv.1 svc.uid
              svcPodUIDCache := addToSetMap acc.1.svcPodUIDCache svc.uid pkv.1 },
            acc.2 ++ [pkv.1])
        else acc)
      psc.podUIDLabelCache
      (by
        intro acc pkv hacc
        dsimp only
        split
        · exact joinSym_maps_add pkv.1 svc.uid hacc
        · exact hacc)
      (psc, []) h
    exact this

theorem refreshCacheByPod_joinSym (psc : PodServiceCache) (pod : Pod)
    (h : JoinSym psc) : JoinSym (psc.refreshCacheByPod pod).1 := by
  unfold PodServiceCache.refreshCacheByPod
  cases hlab : mfind psc.podUIDLabelCache pod.uid with
  | none => exact h
  | some labelSet =>
    have := foldl_preserve (fun acc : PodServiceCache × List UID => JoinSym acc.1)
      (fun acc skv =>
        if selMatches skv.2 labelSet
            && ((mfind acc.1.svcUIDNamespaceCache skv.1).getD "" == pod.ns) then
          ({ acc.1 with
              podSvcUIDCache := addToSetMap acc.1.podSvcUIDCache pod.uid skv.1
              svcPodUIDCache := addToSetMap acc.1.svcPodUIDCache skv.1 pod.uid },
            acc.2 ++ [skv.1])
        else acc)
      psc.svcUIDSelectorCache
      (by
        intro acc skv hacc
        dsimp only
        split
        · exact joinSym_maps_add pod.uid skv.1 hacc
        · exact hacc)
      (psc, []) h
    exact this

theorem setService_joinSym (psc : PodServiceCache) (svc : Service)
    (h : JoinSym psc) : JoinSym (psc.SetService svc) := by
  unfold PodServiceCache.SetService
  dsimp only
  split
  · exact h
  · split
    · exact h
    · exact refreshCacheByService_joinSym _ svc h

theorem setPod_joinSym (psc : PodServiceCache) (pod : Pod)
    (h : JoinSym psc) : JoinSym (psc.SetPod pod) := by
  unfold PodServiceCache.SetPod
  dsimp only
  split
  · exact h
  · exact refreshCacheByPod_joinSym _ pod h

theorem foldl_removeFromSetMap_push (l : List UID) (v : UID)
    (psc : PodServiceCache) :
    l.foldl (fun st svcUID =>
        { st with svcPodUIDCache := removeFromSetMap st.svcPodUIDCache svcUID v }) psc
      = { psc with svcPodUIDCache :=
            l.foldl (fun m k => removeFromSetMap m k v) psc.svcPodUIDCache } := by
  induction l generalizing psc with
  | nil => rfl
  | cons x xs ih =>
    rw [List.foldl_cons, List.foldl_cons, ih]

theorem foldl_removeFromSetMap_push' (l : List UID) (v : UID)
    (psc : PodServiceCache) :
    l.foldl (fun st podUID =>
        { st with podSvcUIDCache := removeFromSetMap st.podSvcUIDCache podUID v }) psc
      = { psc with podSvcUIDCache :=
            l.foldl (fun m k => removeFromSetMap m k v) psc.podSvcUIDCache } := by
  induction l generalizing psc with
  | nil => rfl
  | cons x xs ih =>
    rw [List.foldl_cons, List.foldl_cons, ih]

theorem memSet_foldl_removeFromSetMap (l : List UID) (v : UID)
    (m : List (UID × List UID)) (s p : UID) :
    memSet (l.foldl (fun m k => removeFromSetMap m k v) m) s p
      ↔ memSet m s p ∧ ¬(p = v ∧ s ∈ l) := by
  induction l generalizing m with
  | nil => simp
  | cons x xs ih =>
    rw [List.foldl_cons, ih, memSet_removeFromSetMap]
    simp only [List.mem_cons]
    tauto

theorem deletePod_joinSym (psc : PodServiceCache) (podUID : UID)
    (h : JoinSym psc) : JoinSym (psc.DeletePodFromCache podUID) := by
  unfold PodServiceCache.DeletePodFromCache
  dsimp only
  cases hps : mfind psc.podSvcUIDCache podUID with
  | none => exact h
  | some servicesSet =>
    dsimp only
    intro a b
    rw [foldl_removeFromSetMap_push]
    dsimp only
    rw [memSet_merase, memSet_foldl_removeFromSetMap, h a b]
    by_cases ha : a = podUID
    · have hb : memSet psc.svcPodUIDCache b podUID ↔ b ∈ servicesSet := by
        rw [← h podUID b]
        unfold memSet
        rw [hps]
        exact Iff.rfl
      constructor
      · rintro ⟨_, h2⟩
        exact absurd ha h2
      · rintro ⟨h1, h2⟩
        exact absurd ⟨ha, hb.mp (ha ▸ h1)⟩ h2
    · simp [ha]

theorem deleteService_joinSym (psc : PodServiceCache) (svcUID : UID)
    (h : JoinSym psc) : JoinSym (psc.DeleteServiceFromCache svcUID) := by
  unfold PodServiceCache.DeleteServiceFromCache
  dsimp only
  cases hps : mfind psc.svcPodUIDCache svcUID with
  | none => exact h
  | some podsSet =>
    dsimp only
    intro a b
    rw [foldl_removeFromSetMap_push']
    dsimp only
    rw [memSet_merase, memSet_foldl_removeFromSetMap, h a b]
    by_cases hb : b = svcUID
    · have hA : memSet psc.svcPodUIDCache svcUID a ↔ a ∈ podsSet := by
        unfold memSet
        rw [hps]
        exact Iff.rfl
      constructor
      · rintro ⟨h1, h2⟩
        exact absurd ⟨hb, hA.mp (hb ▸ h1)⟩ h2
      · rintro ⟨_, h2⟩
        exact absurd hb h2
    · simp [hb]

theorem joinSym_new : JoinSym NewPodServiceCache := by
  intro a b
  unfold memSet NewPodServiceCache
  simp [mfind]

theorem pscop_joinSym (psc : PodServiceCache) (op : PSCOp) (h : JoinSym psc) :
    JoinSym (op.apply psc) := by
  cases op with
  | setPod pod => exact setPod_joinSym psc pod h
  | setService svc => exact setService_joinSym psc svc h
  | deletePod podUID => exact deletePod_joinSym psc podUID h
  | deleteService svcUID => exact deleteService_joinSym psc svcUID h

theorem runPSCOps_joinSym (ops : List PSCOp) : JoinSym (runPSCOps ops) := by
  unfold runPSCOps
  exact foldl_preserve JoinSym PSCOp.apply ops
    (fun s a hs => pscop_joinSym s a hs) NewPodServiceCache joinSym_new

/-- C1: join symmetry invariant — for every cache state reachable by any
sequence of `SetPod`, `SetService`, `DeletePodFromCache`,
`DeleteServiceFromCache` on a fresh `PodServiceCache`, and for all pod key
`p` and service key `s`, `s ∈ podSvcUIDCache[p]` iff
`p ∈ svcPodUIDCache[s]`. -/
theorem c1_join_symmetry (ops : List PSCOp) (p s : UID) :
    memSet (runPSCOps ops).podSvcUIDCache p s
      ↔ memSet (runPSCOps ops).svcPodUIDCache s p :=
  runPSCOps_joinSym ops p s

/-- C2 (failing-input evaluation): after `SetService(app=foo)`,
`SetPod(app=foo)`, `SetService(app=bar)`, the stored selector for `s1` is the
new one and the pod's labels do not match it, yet the pod/service relation
from the old selector is still present in both join maps — the upsert never
clears the service's prior membership. -/
theorem c2_stale_relation_after_selector_change :
    (memSet (runPSCOps [.setService svcFoo, .setPod podFoo,
        .setService svcBar]).svcPodUIDCache "s1" "p1")
    ∧ (memSet (runPSCOps [.setService svcFoo, .setPod podFoo,
        .setService svcBar]).podSvcUIDCache "p1" "s1")
    ∧ mfind (runPSCOps [.setService svcFoo, .setPod podFoo,
        .setService svcBar]).svcUIDSelectorCache "s1" = some [("app", "bar")]
    ∧ selMatches [("app", "bar")] podFoo.labels = false := by
  decide

/-- C3 counterexample: the service's most recent `SetService` call carries an
empty selector, yet `s1` still appears in pod `p1`'s matched-service set —
`SetService` with an empty selector is an early-return no-op, so the
previously stored selector and memberships survive. -/
theorem c3_counterexample_empty_update_keeps_membership :
    selEmpty svcNoSel.selector = true
    ∧ memSet (runPSCOps [.setService svcFoo, .setPod podFoo,
        .setService svcNoSel]).podSvcUIDCache "p1" "s1" := by
  decide

theorem foldl_preserve_mem {σ α : Type} (P : σ → Prop) (f : σ → α → σ)
    (l : List α) (hstep : ∀ s a, a ∈ l → P s → P (f s a)) :
    ∀ s, P s → P (l.foldl f s) := by
  induction l with
  | nil => intro s hs; exact hs
  | cons x xs ih =>
    intro s hs
    exact ih (fun s a ha hp => hstep s a (List.mem_cons_of_mem _ ha) hp) _
      (hstep s x (List.mem_cons_self _ _) hs)

theorem refreshCacheByService_unjoinable (psc : PodServiceCache) (svc : Service)
    (S : UID) (hne : svc.uid ≠ S) (h : SvcUnjoinable S psc) :
    SvcUnjoinable S (psc.refreshCacheByService svc).1 := by
  unfold PodServiceCache.refreshCacheByService
  cases mfind psc.svcUIDSelectorCache svc.uid with
  | none => exact h
  | some selector =>
    refine foldl_preserve
      (fun acc : PodServiceCache × List UID => SvcUnjoinable S acc.1)
      _ psc.podUIDLabelCache ?_ (psc, []) h
    intro acc pkv hacc
    dsimp only
    split
    · refine ⟨hacc.1, ?_⟩
      intro p hp
      rw [memSet_addToSetMap] at hp
      rcases hp with ⟨_, hS⟩ | hp
      · exact hne hS.symm
      · exact hacc.2 p hp
    · exact hacc

theorem refreshCacheByPod_unjoinable (psc : PodServiceCache) (pod : Pod)
    (S : UID) (h : SvcUnjoinable S psc) :
    SvcUnjoinable S (psc.refreshCacheByPod pod).1 := by
  unfold PodServiceCache.refreshCacheByPod
  cases mfind psc.podUIDLabelCache pod.uid with
  | none => exact h
  | some labelSet =>
    have hall := mfind_eq_none_iff.mp h.1
    refine foldl_preserve_mem
      (fun acc : PodServiceCache × List UID => SvcUnjoinable S acc.1)
      _ psc.svcUIDSelectorCache ?_ (psc, []) h
    intro acc skv hskv hacc
    dsimp only
    split
    · refine ⟨hacc.1, ?_⟩
      intro p hp
      rw [memSet_addToSetMap] at hp
      rcases hp with ⟨_, hS⟩ | hp
      · exact hall skv hskv hS.symm
      · exact hacc.2 p hp
    · exact hacc

theorem setService_unjoinable (psc : PodServiceCache) (svc : Service) (S : UID)
    (hop : svc.uid = S → selEmpty svc.selector = true)
    (h : SvcUnjoinable S psc) : SvcUnjoinable S (psc.SetService svc) := by
  unfold PodServiceCache.SetService
  dsimp only
  split
  · exact h
  · rename_i hENE
    split
    · exact h
    · have hne : svc.uid ≠ S := fun he => hENE (hop he)
      refine refreshCacheByService_unjoinable _ svc S hne ⟨?_, h.2⟩
      dsimp only
      rw [mfind_minsert, if_neg (fun he : S = svc.uid => hne he.symm)]
      exact h.1

theorem setPod_unjoinable (psc : PodServiceCache) (pod : Pod) (S : UID)
    (h : SvcUnjoinable S psc) : SvcUnjoinable S (psc.SetPod pod) := by
  unfold PodServiceCache.SetPod
  dsimp only
  split
  · exact h
  · exact refreshCacheByPod_unjoinable _ pod S ⟨h.1, h.2⟩

theorem deletePod_unjoinable (psc : PodServiceCache) (podUID : UID) (S : UID)
    (h : SvcUnjoinable S psc) : SvcUnjoinable S (psc.DeletePodFromCache podUID) := by
  unfold PodServiceCache.DeletePodFromCache
  dsimp only
  cases mfind psc.podSvcUIDCache podUID with
  | none => exact ⟨h.1, h.2⟩
  | some servicesSet =>
    dsimp only
    have hfold : SvcUnjoinable S
        (servicesSet.foldl (fun st svcUID =>
          { st with svcPodUIDCache := removeFromSetMap st.svcPodUIDCache svcUID podUID })
          { psc with
              podUIDNamespaceCache := merase psc.podUIDNamespaceCache podUID
              podUIDLabelCache := merase psc.podUIDLabelCache podUID }) := by
      refine foldl_preserve (SvcUnjoinable S) _ servicesSet ?_ _ ⟨h.1, h.2⟩
      intro st a hst
      exact ⟨hst.1, hst.2⟩
    refine ⟨hfold.1, ?_⟩
    intro p hp
    rw [memSet_merase] at hp
    exact hfold.2 p hp.1

theorem deleteService_unjoinable (psc : PodServiceCache) (svcUID : UID) (S : UID)
    (h : SvcUnjoinable S psc) : SvcUnjoinable S (psc.DeleteServiceFromCache svcUID) := by
  unfold PodServiceCache.DeleteServiceFromCache
  dsimp only
  have h1 : mfind (merase psc.svcUIDSelectorCache svcUID) S = none := by
    rw [mfind_merase]
    split
    · rfl
    · exact h.1
  cases mfind psc.svcPodUIDCache svcUID with
  | none => exact ⟨h1, h.2⟩
  | some podsSet =>
    dsimp only
    have hfold : SvcUnjoinable S
        (podsSet.foldl (fun st podUID =>
          { st with podSvcUIDCache := removeFromSetMap st.podSvcUIDCache podUID svcUID })
          { psc with
              svcUIDNamespaceCache := merase psc.svcUIDNamespaceCache svcUID
              svcUIDSelectorCache := merase psc.svcUIDSelectorCache svcUID
              svcUIDNameCache := merase psc.svcUIDNameCache svcUID }) := by
      refine foldl_preserve (SvcUnjoinable S) _ podsSet ?_ _ ⟨h1, h.2⟩
      intro st a hst
      refine ⟨hst.1, ?_⟩
      intro p hp
      rw [memSet_removeFromSetMap] at hp
      exact hst.2 p hp.1
    exact ⟨hfold.1, hfold.2⟩

theorem svcUnjoinable_new (S : UID) : SvcUnjoinable S NewPodServiceCache := by
  refine ⟨rfl, ?_⟩
  intro p hp
  unfold memSet NewPodServiceCache at hp
  simp [mfind] at hp

/-- C3 amended: a service `S` never appears in any pod's matched-service set
as long as every `SetService` call for `S` in the run carried an empty
selector.  (The original claim also covered a non-empty-to-empty selector
update; `SetService` treats an empty selector as a no-op, so such an update
leaves the previous selector and memberships intact — see the
counterexample.) -/
theorem c3_amended_empty_selector_never_joins (ops : List PSCOp) (S : UID)
    (hops : ∀ op ∈ ops, emptySelectorFor S op = true) (p : UID) :
    ¬ memSet (runPSCOps ops).podSvcUIDCache p S := by
  have hinv : SvcUnjoinable S (runPSCOps ops) := by
    unfold runPSCOps
    refine foldl_preserve_mem (SvcUnjoinable S) PSCOp.apply ops ?_
      NewPodServiceCache (svcUnjoinable_new S)
    intro s op hop hs
    cases op with
    | setPod pod => exact setPod_unjoinable s pod S hs
    | setService svc =>
      have hb := hops _ hop
      unfold emptySelectorFor at hb
      refine setService_unjoinable s svc S ?_ hs
      intro he
      rcases Bool.or_eq_true_iff.mp hb with hb | hb
      · exact absurd he (by simpa using hb)
      · exact hb
    | deletePod podUID => exact deletePod_unjoinable s podUID S hs
    | deleteService svcUID => exact deleteService_unjoinable s svcUID S hs
  exact hinv.2 p

/-- Witness for the amended C3 theorem at a concrete run. -/
theorem c3_amended_witness :
    (∀ op ∈ ([.setService svcNoSel, .setPod podFoo] : List PSCOp),
        emptySelectorFor "s1" op = true)
    ∧ ¬ memSet (runPSCOps [.setService svcNoSel,
        .setPod podFoo]).podSvcUIDCache "p1" "s1" :=
  ⟨by decide,
    c3_amended_empty_selector_never_joins [.setService svcNoSel, .setPod podFoo]
      "s1" (by decide) "p1"⟩

theorem strLe_refl (a : String) : strLe a a = true := by
  unfold strLe
  induction a.data with
  | nil => rfl
  | cons c cs ih => simp [charListLe, ih]

theorem head_insertionSort_least (l : List String) (x : String) (rest : List String)
    (h : List.insertionSort (fun a b : String => strLe a b = true) l = x :: rest) :
    x ∈ l ∧ ∀ m ∈ l, strLe x m = true := by
  have hperm := List.perm_insertionSort (fun a b : String => strLe a b = true) l
  have hsorted := List.sorted_insertionSort (fun a b : String => strLe a b = true) l
  rw [h] at hperm hsorted
  constructor
  · exact hperm.mem_iff.mp (List.mem_cons_self x rest)
  · intro m hm
    rcases List.mem_cons.mp (hperm.mem_iff.mpr hm) with heq | hmem
    · exact heq ▸ strLe_refl x
    · exact List.rel_of_sorted_cons hsorted m hmem

/-- C4: `GetServiceNameForPodUID` errors exactly when zero services are
joined to the pod; otherwise it returns a service name that is joined to the
pod and lexicographically least among all joined service names. -/
theorem c4_deterministic_service_resolution (psc : PodServiceCache) (podUID : UID) :
    (psc.GetServiceNameForPodUID podUID = none
      ↔ (mfind psc.podSvcUIDCache podUID).getD [] = [])
    ∧ (∀ n, psc.GetServiceNameForPodUID podUID = some n →
        n ∈ psc.getServiceNamesForPodUID podUID
        ∧ ∀ m ∈ psc.getServiceNamesForPodUID podUID, strLe n m = true) := by
  have hnames : psc.getServiceNamesForPodUID podUID = []
      ↔ (mfind psc.podSvcUIDCache podUID).getD [] = [] := by
    unfold PodServiceCache.getServiceNamesForPodUID
    cases mfind psc.podSvcUIDCache podUID with
    | none => simp
    | some uids => simp
  constructor
  · unfold PodServiceCache.GetServiceNameForPodUID
    dsimp only
    split
    · rename_i hemp
      simp only [true_iff]
      exact hnames.mp (List.isEmpty_iff.mp hemp)
    · rename_i hemp
      have hne : psc.getServiceNamesForPodUID podUID ≠ [] := by
        intro hc
        exact hemp (by rw [hc]; rfl)
      cases hsort : List.insertionSort (fun a b : String => strLe a b = true)
          (psc.getServiceNamesForPodUID podUID) with
      | nil =>
        have hp := List.perm_insertionSort (fun a b : String => strLe a b = true)
          (psc.getServiceNamesForPodUID podUID)
        rw [hsort] at hp
        exact absurd hp.symm.eq_nil hne
      | cons x rest =>
        constructor
        · intro hc
          exact absurd hc (by simp)
        · intro hc
          exact absurd (hnames.mpr hc) hne
  · intro n hn
    unfold PodServiceCache.GetServiceNameForPodUID at hn
    dsimp only at hn
    split at hn
    · exact absurd hn (by simp)
    · cases hsort : List.insertionSort (fun a b : String => strLe a b = true)
          (psc.getServiceNamesForPodUID podUID) with
      | nil => rw [hsort] at hn; exact absurd hn (by simp)
      | cons x rest =>
        rw [hsort] at hn
        cases hn
        exact head_insertionSort_least _ _ _ hsort

/-- Witness for C4: on the fixture, resolution picks `web-a` (the smaller of
`web-b` and `web-a`), and the theorem's conclusions hold concretely. -/
theorem c4_witness :
    PodServiceCache.GetServiceNameForPodUID c4psc "p1" = some "web-a"
    ∧ ("web-a" ∈ PodServiceCache.getServiceNamesForPodUID c4psc "p1"
        ∧ ∀ m ∈ PodServiceCache.getServiceNamesForPodUID c4psc "p1",
            strLe "web-a" m = true) :=
  ⟨by decide, (c4_deterministic_service_resolution c4psc "p1").2 "web-a" (by decide)⟩

/-! ## Deletion cascades (C5) -/

theorem getServiceName_none_of_empty (psc : PodServiceCache) (p : UID)
    (h : (mfind psc.podSvcUIDCache p).getD [] = []) :
    psc.GetServiceNameForPodUID p = none := by
  unfold PodServiceCache.GetServiceNameForPodUID PodServiceCache.getServiceNamesForPodUID
  dsimp only
  cases hm : mfind psc.podSvcUIDCache p with
  | none => rfl
  | some l =>
    rw [hm] at h
    simp only [Option.getD_some] at h
    subst h
    rfl

theorem deleteService_char (psc : PodServiceCache) (S : UID) (pods : List UID)
    (hsp : mfind psc.svcPodUIDCache S = some pods) :
    mfind (psc.DeleteServiceFromCache S).svcPodUIDCache S = none
    ∧ (∀ p s', memSet (psc.DeleteServiceFromCache S).podSvcUIDCache p s'
        ↔ memSet psc.podSvcUIDCache p s' ∧ ¬(s' = S ∧ p ∈ pods)) := by
  unfold PodServiceCache.DeleteServiceFromCache
  dsimp only
  rw [hsp]
  dsimp only
  rw [foldl_removeFromSetMap_push']
  dsimp only
  constructor
  · rw [mfind_merase, if_pos rfl]
  · intro p s'
    rw [memSet_foldl_removeFromSetMap]

theorem updateServiceProp_total (pods : List UID) :
    ∀ (dc : DatapointCache), (∀ p ∈ pods, (mfind dc.dimPropCache p).isSome) →
    ∃ dc', dc.updateServicePropForPods pods = some dc'
      ∧ dc'.podServiceCache = dc.podServiceCache
      ∧ (∀ p ∈ pods, ∃ dp, mfind dc'.dimPropCache p = some dp
          ∧ (dc.podServiceCache.GetServiceNameForPodUID p = none →
              mfind dp.Properties "service" = none))
      ∧ (∀ q, q ∉ pods → mfind dc'.dimPropCache q = mfind dc.dimPropCache q) := by
  induction pods with
  | nil =>
    intro dc _
    exact ⟨dc, rfl, rfl, by simp, fun q _ => rfl⟩
  | cons x xs ih =>
    intro dc hdim
    obtain ⟨dp, hdp⟩ := Option.isSome_iff_exists.mp (hdim x (List.mem_cons_self _ _))
    cases hres : dc.podServiceCache.GetServiceNameForPodUID x with
    | none =>
      have hdim1 : ∀ p ∈ xs,
          (mfind (minsert dc.dimPropCache x
            { dp with Properties := merase dp.Properties "service" }) p).isSome := by
        intro p hp
        rw [mfind_minsert]
        split
        · rfl
        · exact hdim p (List.mem_cons_of_mem _ hp)
      obtain ⟨dc', h1, h2, h3, h4⟩ := ih
        { dc with dimPropCache := (minsert dc.dimPropCache x
            { dp with Properties := merase dp.Properties "service" }) } hdim1
      refine ⟨dc', ?_, h2, ?_, ?_⟩
      · rw [← h1]
        unfold DatapointCache.updateServicePropForPods
        rw [List.foldlM_cons]
        dsimp only
        rw [hres, hdp]
        rfl
      · intro p hp
        rcases List.mem_cons.mp hp with rfl | hpxs
        · by_cases hx : p ∈ xs
          · exact h3 p hx
          · refine ⟨{ dp with Properties := merase dp.Properties "service" }, ?_, ?_⟩
            · rw [h4 p hx, mfind_minsert, if_pos rfl]
            · intro _
              rw [mfind_merase, if_pos rfl]
        · exact h3 p hpxs
      · intro q hq
        rw [h4 q (fun hmem => hq (List.mem_cons_of_mem _ hmem)), mfind_minsert,
          if_neg (fun he : q = x => hq (he ▸ List.mem_cons_self _ _))]
    | some svcName =>
      have hdim1 : ∀ p ∈ xs,
          (mfind (minsert dc.dimPropCache x
            { dp with Properties := minsert dp.Properties "service" svcName }) p).isSome := by
        intro p hp
        rw [mfind_minsert]
        split
        · rfl
        · exact hdim p (List.mem_cons_of_mem _ hp)
      obtain ⟨dc', h1, h2, h3, h4⟩ := ih
        { dc with dimPropCache := (minsert dc.dimPropCache x
            { dp with Properties := minsert dp.Properties "service" svcName }) } hdim1
      refine ⟨dc', ?_, h2, ?_, ?_⟩
      · rw [← h1]
        unfold DatapointCache.updateServicePropForPods
        rw [List.foldlM_cons]
        dsimp only
        rw [hres, hdp]
        rfl
      · intro p hp
        rcases List.mem_cons.mp hp with rfl | hpxs
        · by_cases hx : p ∈ xs
          · exact h3 p hx
          · refine ⟨{ dp with Properties := minsert dp.Properties "service" svcName },
              ?_, ?_⟩
            · rw [h4 p hx, mfind_minsert, if_pos rfl]
            · intro hnone
              rw [hres] at hnone
              cases hnone
        · exact h3 p hpxs
      · intro q hq
        rw [h4 q (fun hmem => hq (List.mem_cons_of_mem _ hmem)), mfind_minsert,
          if_neg (fun he : q = x => hq (he ▸ List.mem_cons_self _ _))]

/-- C5: deletion cascades — after `handleDeleteService(S)` where `S` was
joined to pods `P1`, `P2` and no other service is joined to either pod (with
the pods' join entries half-symmetric to `S`'s pod set, as the join-symmetry
invariant guarantees), the dimension-property records of `P1` and `P2` no
longer contain a `"service"` property, `svcPodUIDCache` has no entry for
`S`, and no pod's `podSvcUIDCache` set contains `S`. -/
theorem c5_deletion_cascades (dc : DatapointCache) (S P1 P2 : UID) (pods : List UID)
    (hsp : mfind dc.podServiceCache.svcPodUIDCache S = some pods)
    (hP1 : P1 ∈ pods) (hP2 : P2 ∈ pods)
    (honly1 : ∀ s', memSet dc.podServiceCache.podSvcUIDCache P1 s' → s' = S)
    (honly2 : ∀ s', memSet dc.podServiceCache.podSvcUIDCache P2 s' → s' = S)
    (hhalf : ∀ p, memSet dc.podServiceCache.podSvcUIDCache p S → p ∈ pods)
    (hdim : ∀ p ∈ pods, (mfind dc.dimPropCache p).isSome) :
    ∃ dc', dc.handleDeleteService S = some dc'
      ∧ (∃ dp1, mfind dc'.dimPropCache P1 = some dp1
          ∧ mfind dp1.Properties "service" = none)
      ∧ (∃ dp2, mfind dc'.dimPropCache P2 = some dp2
          ∧ mfind dp2.Properties "service" = none)
      ∧ mfind dc'.podServiceCache.svcPodUIDCache S = none
      ∧ ∀ p, ¬ memSet dc'.podServiceCache.podSvcUIDCache p S := by
  obtain ⟨hchar1, hchar2⟩ := deleteService_char dc.podServiceCache S pods hsp
  have hempty : ∀ (P : UID), P ∈ pods →
      (∀ s', memSet dc.podServiceCache.podSvcUIDCache P s' → s' = S) →
      (mfind (dc.podServiceCache.DeleteServiceFromCache S).podSvcUIDCache P).getD []
        = [] := by
    intro P hP honly
    refine List.eq_nil_iff_forall_not_mem.mpr ?_
    intro s' hs'
    have hm := (hchar2 P s').mp hs'
    exact hm.2 ⟨honly s' hm.1, hP⟩
  obtain ⟨dc', h1, h2, h3, h4⟩ := updateServiceProp_total pods
    { dc with podServiceCache := dc.podServiceCache.DeleteServiceFromCache S } hdim
  refine ⟨dc', ?_, ?_, ?_, ?_, ?_⟩
  · rw [← h1]
    unfold DatapointCache.handleDeleteService PodServiceCache.GetPodUIDsForServiceUID
    rw [hsp]
    rfl
  · obtain ⟨dp1, hdp1, himp1⟩ := h3 P1 hP1
    exact ⟨dp1, hdp1, himp1 (getServiceName_none_of_empty _ P1
      (hempty P1 hP1 honly1))⟩
  · obtain ⟨dp2, hdp2, himp2⟩ := h3 P2 hP2
    exact ⟨dp2, hdp2, himp2 (getServiceName_none_of_empty _ P2
      (hempty P2 hP2 honly2))⟩
  · rw [h2]
    exact hchar1
  · intro p hp
    rw [h2] at hp
    have hm := (hchar2 p S).mp hp
    exact hm.2 ⟨rfl, hhalf p hm.1⟩

/-- Witness for C5 at the fixture state. -/
theorem c5_witness :
    ((∀ s', memSet c5dc.podServiceCache.podSvcUIDCache "p1" s' → s' = "s1")
      ∧ (∀ p, memSet c5dc.podServiceCache.podSvcUIDCache p "s1" → p ∈ ["p1", "p2"]))
    ∧ (∃ dc', c5dc.handleDeleteService "s1" = some dc'
        ∧ (∃ dp1, mfind dc'.dimPropCache "p1" = some dp1
            ∧ mfind dp1.Properties "service" = none)
        ∧ (∃ dp2, mfind dc'.dimPropCache "p2" = some dp2
            ∧ mfind dp2.Properties "service" = none)
        ∧ mfind dc'.podServiceCache.svcPodUIDCache "s1" = none
        ∧ ∀ p, ¬ memSet dc'.podServiceCache.podSvcUIDCache p "s1") := by
  have honly1 : ∀ s', memSet c5dc.podServiceCache.podSvcUIDCache "p1" s' → s' = "s1" := by
    intro s' hs'
    unfold memSet at hs'
    rw [show mfind c5dc.podServiceCache.podSvcUIDCache "p1" = some ["s1"] by decide] at hs'
    simpa using hs'
  have honly2 : ∀ s', memSet c5dc.podServiceCache.podSvcUIDCache "p2" s' → s' = "s1" := by
    intro s' hs'
    unfold memSet at hs'
    rw [show mfind c5dc.podServiceCache.podSvcUIDCache "p2" = some ["s1"] by decide] at hs'
    simpa using hs'
  have hhalf : ∀ p, memSet c5dc.podServiceCache.podSvcUIDCache p "s1" → p ∈ ["p1", "p2"] := by
    intro p hp
    unfold memSet at hp
    unfold c5dc c5psc at hp
    dsimp only at hp
    simp only [mfind] at hp
    split at hp
    · rename_i h
      simp [h]
    · split at hp
      · rename_i h
        simp [h]
      · simp at hp
  exact ⟨⟨honly1, hhalf⟩,
    c5_deletion_cascades c5dc "s1" "p1" "p2" ["p1", "p2"] (by decide)
      (by decide) (by decide) honly1 honly2 hhalf (by decide)⟩

/-- C6 evaluation at failing inputs: on a fresh cache with no record for the
key, `addPropertiesToDimProps` and `deletePropertiesFromDimProps` with a
non-empty property collection, and the per-pod `"service"` update, all
dereference the missing (nil) record and fault (`none`); `DeleteByKey` on the
unknown key — and a property update with an empty collection, whose loop body
never runs — are safe no-ops. -/
theorem c6_unknown_key_faults :
    (NewDatapointCache false).addPropertiesToDimProps "u1" [("a", "b")] = none
    ∧ (NewDatapointCache false).deletePropertiesFromDimProps "u1" ["a"] = none
    ∧ (NewDatapointCache false).updateServicePropForPods ["p1"] = none
    ∧ (NewDatapointCache false).DeleteByKey "u1" = some (NewDatapointCache false)
    ∧ (NewDatapointCache false).addPropertiesToDimProps "u1" []
        = some (NewDatapointCache false) := by
  decide

/-- C7: malformed-resource atomicity — whenever no identity key can be
extracted from the inbound object, `HandleAdd` returns the `nil` failure
indication and the entire cache state is unchanged.  (For typed pods and
services identity extraction cannot fail — `ObjectMeta` is an embedded
struct — so every extraction-failing object falls into the unknown-shape
default branch, which returns before any mutation.) -/
theorem c7_malformed_resource_atomicity (f : DeriveFns) (dc : DatapointCache)
    (r : Resource) (h : keyForObject r = none) :
    dc.HandleAdd f r = some (dc, none) := by
  cases r with
  | pod p => simp [keyForObject] at h
  | service s => simp [keyForObject] at h
  | other kind uid => simp [keyForObject] at h
  | unknown hasMeta uid =>
    cases hasMeta with
    | false => rfl
    | true => simp [keyForObject] at h

/-- Witness for C7 at a concrete metadata-less object. -/
theorem c7_witness :
    keyForObject (.unknown false "u9") = none
    ∧ (NewDatapointCache false).HandleAdd trivialDerive (.unknown false "u9")
        = some (NewDatapointCache false, none) :=
  ⟨by decide, c7_malformed_resource_atomicity trivialDerive (NewDatapointCache false)
    (.unknown false "u9") (by decide)⟩

/-- C8 evaluation at the failing input: the datapoint returned by
`AllDatapoints` carries the same dimension-map reference (heap cell 0) as the
cached datapoint, so a caller's write through the returned copy changes the
dimension map subsequently read for the cached datapoint — the shallow struct
copy does not isolate the dimension map. -/
theorem c8_shared_dimension_map :
    c8cache.AllDatapoints = [{ metric := "m", dimsRef := 0 }]
    ∧ ((mfind c8cache.dpCache "u1").getD []).headD { metric := "", dimsRef := 0 }
        = { metric := "m", dimsRef := 0 }
    ∧ c8cache.dimsOf { metric := "m", dimsRef := 0 } = [("a", "b")]
    ∧ (c8cache.setDim { metric := "m", dimsRef := 0 } "a" "c").dimsOf
        { metric := "m", dimsRef := 0 } = [("a", "c")] := by
  decide

/-- C9 counterexample: a pod never recorded in a fresh `PodCache`, with
zero-valued tracked fields (no labels, empty namespace, no owner references),
is reported cached (unchanged) — every stored field's Go zero value compares
equal to the pod's fields. -/
theorem c9_counterexample_zero_pod_reported_cached :
    NewPodCache.IsCached { uid := "p9", ns := "", labels := [], ownerReferences := [] }
      = true := by
  decide

/-- C9 amended: a never-recorded service is always reported changed
(`IsCached` false, since the stored selector zero value is a nil interface
that never equals a freshly computed selector); a never-recorded pod is
reported changed exactly when at least one tracked field differs from its Go
zero value — a pod with no labels, empty namespace and no owner references is
reported cached. -/
theorem c9_amended_first_sight (pc : PodCache) (pod : Pod)
    (h1 : mfind pc.podUIDLabelCache pod.uid = none)
    (h2 : mfind pc.podUIDNamespaceCache pod.uid = none)
    (h3 : mfind pc.podUIDORCache pod.uid = none)
    (sc : ServiceCache) (svc : Service)
    (h4 : mfind sc.svcUIDSelectorCache svc.uid = none) :
    (pc.IsCached pod = true
      ↔ (pod.labels = [] ∧ pod.ns = "" ∧ pod.ownerReferences = []))
    ∧ sc.IsCached svc = false := by
  constructor
  · unfold PodCache.IsCached
    rw [h1, h2, h3]
    simp only [Option.getD_none, Bool.and_eq_true, beq_iff_eq]
    constructor
    · rintro ⟨⟨ha, hb⟩, hc⟩
      exact ⟨ha.symm, hb.symm, hc.symm⟩
    · rintro ⟨ha, hb, hc⟩
      exact ⟨⟨ha.symm, hb.symm⟩, hc.symm⟩
  · unfold ServiceCache.IsCached
    rw [h4]
    rfl

/-- Witness for the amended C9 theorem on fresh caches. -/
theorem c9_amended_witness :
    (mfind NewPodCache.podUIDLabelCache podC9.uid = none)
    ∧ ((NewPodCache.IsCached podC9 = true
          ↔ (podC9.labels = [] ∧ podC9.ns = "" ∧ podC9.ownerReferences = []))
        ∧ NewServiceCache.IsCached svcC9 = false) :=
  ⟨rfl, c9_amended_first_sight NewPodCache podC9 rfl rfl rfl NewServiceCache svcC9 rfl⟩

/-- C10: partial purge on pod delete — after `AddPod` then `DeleteByKey`, the
label cache and the namespace index no longer know the pod, while
`GetOwnerReferences` still returns the owner references recorded by the
add (the owner-reference cache is never purged). -/
theorem c10_partial_purge (pc : PodCache) (pod : Pod) :
    ((pc.AddPod pod).DeleteByKey pod.uid).GetLabels pod.uid = []
    ∧ pod.uid ∉ ((pc.AddPod pod).DeleteByKey pod.uid).GetPodsInNamespace pod.ns
    ∧ ((pc.AddPod pod).DeleteByKey pod.uid).GetOwnerReferences pod.uid
        = pod.ownerReferences := by
  unfold PodCache.AddPod PodCache.DeleteByKey PodCache.GetLabels
    PodCache.GetOwnerReferences PodCache.GetPodsInNamespace
  dsimp only
  refine ⟨?_, ?_, ?_⟩
  · rw [mfind_merase, if_pos rfl]
    rfl
  · intro hmem
    rw [mfind_minsert, if_pos rfl] at hmem
    have hm : memSet (removeFromSetMap (addToSetMap pc.namespacePodUIDCache pod.ns pod.uid)
        ((some pod.ns).getD "") pod.uid) ((some pod.ns).getD "") pod.uid := hmem
    rw [memSet_removeFromSetMap] at hm
    exact hm.2 ⟨rfl, rfl⟩
  · rw [mfind_minsert, if_pos rfl]
    rfl

/-- Witness for C10 at a concrete pod and fresh cache. -/
theorem c10_witness :
    ((NewPodCache.AddPod podC10).DeleteByKey podC10.uid).GetLabels podC10.uid = []
    ∧ podC10.uid ∉ ((NewPodCache.AddPod podC10).DeleteByKey podC10.uid).GetPodsInNamespace podC10.ns
    ∧ ((NewPodCache.AddPod podC10).DeleteByKey podC10.uid).GetOwnerReferences podC10.uid
        = podC10.ownerReferences :=
  c10_partial_purge NewPodCache podC10
